import Mathlib

/-!
Verification of the thread-sharing engine
(`src/app/internal_packages/thread-sharing/lib/main.tsx`).

The TypeScript module is shallowly embedded: the publish pipeline
(`syncThreadToWeb`), the unshare path (`unsyncThread`), the debounce
scheduler (`syncThreadToWebSoon` / its timer flush) and the fuzzy
resolver (`_findCorrespondingThread`, `_parseOpenThreadUrl`) become pure
Lean functions.  External collaborators (file system, remote asset API,
identity, the metadata task queue, the entity-store query engine) are
passed in explicitly as an environment or modelled from their documented
contracts.  JavaScript objects used as string-keyed maps are embedded as
insertion-ordered association lists, and JavaScript truthiness tests are
embedded at each use site exactly as the source performs them.
-/

set_option maxHeartbeats 1000000

namespace ThreadSharing

/-- An attachment (`File` model): id plus display name. -/
structure SFile where
  id : String
  displayName : String
deriving DecidableEq

/-- A message of a thread.  `version` is the monotonic version stamp used by
the fingerprint; `hidden` embeds `m.isHidden()` (reminder notifications,
deleted emails, etc., excluded at line 145); `files` are the attachments. -/
structure Message where
  id : String
  version : Nat
  body : String
  hidden : Bool
  files : List SFile
deriving DecidableEq

/-- The plugin metadata blob stored on a thread under `PLUGIN_ID`.
Absent JS fields are `none`; `fileURLs` is an insertion-ordered map from
file id to uploaded URL. -/
structure SharingMetadata where
  shared : Bool
  key : Option String
  combinedVersionHash : Option String
  fileURLs : Option (List (String × String))
deriving DecidableEq

/-- A thread (the shared entity).  Timestamps are the three fields queried
by the resolver. -/
structure Thread where
  id : String
  subject : String
  firstMessageTimestamp : Int
  lastMessageSentTimestamp : Int
  lastMessageReceivedTimestamp : Int
  metadata : Option SharingMetadata
deriving DecidableEq

/-- `thread.metadataForPluginId(PLUGIN_ID) || {}` — the stored metadata, or
the empty object (all fields undefined / falsy) when none is stored. -/
def metadataOf (t : Thread) : SharingMetadata :=
  t.metadata.getD { shared := false, key := none, combinedVersionHash := none, fileURLs := none }

/-- JS property read `m[k]` on a string-keyed object: first binding wins. -/
def objGet {α : Type} : List (String × α) → String → Option α
  | [], _ => none
  | p :: rest, k => if p.1 = k then some p.2 else objGet rest k

/-- JS property write `m[k] = v`: replace the binding in place when the key
is present, otherwise append it (insertion order). -/
def objSet {α : Type} : List (String × α) → String → α → List (String × α)
  | [], k, v => [(k, v)]
  | p :: rest, k, v => if p.1 = k then (k, v) :: rest else p :: objSet rest k v

/-- JS truthiness of a possibly-undefined string (`undefined` and `""` are
falsy). -/
def truthyStr : Option String → Bool
  | none => false
  | some s => !(s = "")

/-- JS `a || d` for a possibly-undefined string `a` (used for
`metadata.key || default`). -/
def strOr : Option String → String → String
  | none, d => d
  | some s, d => if s = "" then d else s

/-! ### Decimal rendering of numbers

JavaScript renders the numeric `version` fields and `Date.now()` in
decimal when they are interpolated into strings or joined.  `natStr`
embeds that rendering for naturals; it is fuel-structured so that it
evaluates by `decide`. -/

/-- Auxiliary digits-accumulating renderer; `fuel` bounds the recursion
depth (any `fuel > ` number of digits gives the exact decimal form). -/
def natStrAux : Nat → Nat → List Char
  | 0, _ => []
  | fuel + 1, n =>
    if n < 10 then [Nat.digitChar n]
    else natStrAux fuel (n / 10) ++ [Nat.digitChar (n % 10)]

/-- Decimal rendering of a natural number, as JS `String(n)` produces. -/
def natStr (n : Nat) : String :=
  String.mk (natStrAux (n + 1) n)

/-- Numeric value of a decimal digit character. -/
def digitVal (c : Char) : Nat := c.toNat - 48

/-- Read a digit string back to the natural it denotes. -/
def decodeDigits (cs : List Char) : Nat :=
  cs.foldl (fun a c => a * 10 + digitVal c) 0

theorem digitVal_digitChar (n : Nat) (h : n < 10) : digitVal (Nat.digitChar n) = n := by
  interval_cases n <;> decide

theorem decodeDigits_concat (cs : List Char) (c : Char) :
    decodeDigits (cs ++ [c]) = decodeDigits cs * 10 + digitVal c := by
  simp [decodeDigits, List.foldl_append]

theorem decodeDigits_natStrAux (fuel n : Nat) (h : n < 10 ^ fuel) :
    decodeDigits (natStrAux fuel n) = n := by
  induction fuel generalizing n with
  | zero =>
    simp [pow_zero] at h
    simp [natStrAux, decodeDigits, h]
  | succ f ih =>
    rw [natStrAux]
    split
    · next hlt => simp [decodeDigits, digitVal_digitChar n hlt]
    · next hge =>
      have hdiv : n / 10 < 10 ^ f := by
        rw [Nat.div_lt_iff_lt_mul (by norm_num)]
        calc n < 10 ^ (f + 1) := h
          _ = 10 ^ f * 10 := by ring
      rw [decodeDigits_concat, ih (n / 10) hdiv,
        digitVal_digitChar (n % 10) (Nat.mod_lt n (by norm_num))]
      omega

theorem decodeDigits_natStr (n : Nat) : decodeDigits (natStr n).data = n := by
  have hn : n < 10 ^ (n + 1) := by
    calc n < 2 ^ n := Nat.lt_two_pow n
      _ ≤ 10 ^ n := Nat.pow_le_pow_left (by norm_num) n
      _ ≤ 10 ^ (n + 1) := Nat.pow_le_pow_right (by norm_num) (Nat.le_succ n)
  exact decodeDigits_natStrAux (n + 1) n hn

theorem natStr_data_inj {a b : Nat} (h : (natStr a).data = (natStr b).data) : a = b := by
  have := congrArg decodeDigits h
  rwa [decodeDigits_natStr, decodeDigits_natStr] at this

/-! ### The fingerprint

`messages.map(m => m.version).join('|')` (line 147). -/

/-- JS `Array.prototype.join('|')` over decimal-rendered versions. -/
def joinVersions : List Nat → String
  | [] => ""
  | [v] => natStr v
  | v :: w :: rest => natStr v ++ "|" ++ joinVersions (w :: rest)

/-- `const combinedVersionHash = messages.map(m => m.version).join('|')`. -/
def combinedVersionHashOf (messages : List Message) : String :=
  joinVersions (messages.map fun m => m.version)

theorem joinVersions_data_cons (x : Nat) (L : List Nat) (hL : L ≠ []) :
    (joinVersions (x :: L)).data = (natStr x).data ++ '|' :: (joinVersions L).data := by
  cases L with
  | nil => exact absurd rfl hL
  | cons y ys => simp [joinVersions, String.data_append]

theorem joinVersions_data_inj_at (va : List Nat) (vb : List Nat) (v w : Nat)
    (h : (joinVersions (va ++ v :: vb)).data = (joinVersions (va ++ w :: vb)).data) :
    v = w := by
  induction va with
  | nil =>
    simp only [List.nil_append] at h
    cases vb with
    | nil => exact natStr_data_inj h
    | cons y ys =>
      rw [joinVersions_data_cons v (y :: ys) (by simp),
        joinVersions_data_cons w (y :: ys) (by simp)] at h
      have hlen : (natStr v).data.length = (natStr w).data.length := by
        have hl := congrArg List.length h
        simp only [List.length_append, List.length_cons] at hl
        omega
      exact natStr_data_inj (List.append_inj h hlen).1
  | cons x va' ih =>
    have h1 : va' ++ v :: vb ≠ [] := by simp
    have h2 : va' ++ w :: vb ≠ [] := by simp
    rw [List.cons_append, List.cons_append, joinVersions_data_cons x _ h1,
      joinVersions_data_cons x _ h2] at h
    have h3 := List.append_cancel_left h
    exact ih (List.cons.inj h3).2

/-! ### The publish pipeline

`syncThreadToWeb` (lines 137-207) and `unsyncThread` (lines 209-223).
External I/O is supplied by an `Env`; each remote call and each task-queue
request is recorded as an `Effect`. -/

/-- The external collaborators consulted during one publish attempt:
`_readFile(AttachmentStore.pathForFile f)` (`none` = the read rejects,
`some n` = `n` bytes come back), `MailspringAPIRequest.postStaticAsset`
for an attachment (`none` = the upload rejects, `some url` = resulting
link), whether the snapshot / tombstone `postStaticAsset` succeeds, and
`Date.now()`. -/
structure Env where
  read : SFile → Option Nat
  upload : SFile → Option String
  snapshotOk : Bool
  now : Nat

/-- How a publish / unpublish call ended. -/
inductive SyncStatus where
  | noop
  | ok
  | failed
deriving DecidableEq

/-- One observable external action of the engine. -/
inductive Effect where
  | assetUpload : String → Option String → Effect
  | snapshotWrite : String → List (String × String) → Bool → Effect
  | queueMetadataTask : SharingMetadata → Effect
deriving DecidableEq

/-- Result of a `syncThreadToWeb` / `unsyncThread` call: whether it
returned early (`noop`), completed (`ok`) or rejected (`failed`), the
external actions it performed in order, and the metadata value handed to
`Actions.queueTask(SyncbackMetadataTask.forSaving ...)`, if any. -/
structure SyncOutcome where
  status : SyncStatus
  effects : List Effect
  queued : Option SharingMetadata
deriving DecidableEq

/-- One iteration of the upload `while` loop body (lines 164-178): read the
attachment bytes, throw (caught by the per-file `try`) on zero bytes or a
failed read, otherwise post the asset and record its URL under the file id. -/
def processUpload (env : Env) (urls : List (String × String)) (f : SFile) :
    List (String × String) × List Effect :=
  match env.read f with
  | none => (urls, [])
  | some len =>
    if len = 0 then (urls, [])
    else
      match env.upload f with
      | none => (urls, [Effect.assetUpload f.id none])
      | some link => (objSet urls f.id link, [Effect.assetUpload f.id (some link)])

/-- The upload `while (toUpload.length)` loop, already oriented in `pop`
order (the source pops from the back, so the caller passes the reversed
backlog). -/
def uploadSeq (env : Env) : List SFile → List (String × String) →
    List (String × String) × List Effect
  | [], urls => (urls, [])
  | f :: rest, urls =>
    let step := processUpload env urls f
    let restRes := uploadSeq env rest step.1
    (restRes.1, step.2 ++ restRes.2)

/-- `messages.reduce((a, m) => a.concat(m.files), [])` (line 161). -/
def collectFiles (messages : List Message) : List SFile :=
  messages.foldl (fun a m => a ++ m.files) []

/-- `syncThreadToWeb(thread)` (lines 137-207).  `allMessages` is the result
of the collaborator query `DatabaseStore.findAll(Message, {threadId})`
including bodies; the function filters hidden messages, short-circuits when
the fingerprint is unchanged, otherwise uploads missing attachments
(failures per-file are caught and skipped), posts the thread snapshot (a
rejection aborts, so no task is queued), and finally queues the metadata
persistence task. -/
def syncThreadToWeb (env : Env) (t : Thread) (allMessages : List Message) : SyncOutcome :=
  let metadata := metadataOf t
  let messages := allMessages.filter fun m => !m.hidden
  let newHash := combinedVersionHashOf messages
  if metadata.combinedVersionHash = some newHash then
    { status := SyncStatus.noop, effects := [], queued := none }
  else
    let key := strOr metadata.key (t.id ++ "-" ++ natStr env.now)
    let urls0 := metadata.fileURLs.getD []
    let files := collectFiles messages
    let toUpload := files.filter fun f => !truthyStr (objGet urls0 f.id)
    let up := uploadSeq env toUpload.reverse urls0
    if env.snapshotOk then
      let value : SharingMetadata :=
        { shared := true, key := some key, combinedVersionHash := some newHash,
          fileURLs := some up.1 }
      { status := SyncStatus.ok,
        effects := up.2 ++ [Effect.snapshotWrite key up.1 true,
          Effect.queueMetadataTask value],
        queued := some value }
    else
      { status := SyncStatus.failed,
        effects := up.2 ++ [Effect.snapshotWrite key up.1 false],
        queued := none }

/-- `unsyncThread(thread)` (lines 209-223): post the tombstone
`{shared: false}` to the stored key's address (a rejection aborts), then
queue a metadata task whose value is `{shared: false, key: metadata.key}` —
every other metadata field, `fileURLs` included, is absent from that value.
The tombstone document carries no `fileURLs` map, recorded here as `[]`. -/
def unsyncThread (env : Env) (t : Thread) : SyncOutcome :=
  let metadata := metadataOf t
  let value : SharingMetadata :=
    { shared := false, key := metadata.key, combinedVersionHash := none, fileURLs := none }
  if env.snapshotOk then
    { status := SyncStatus.ok,
      effects := [Effect.snapshotWrite (metadata.key.getD "") [] true,
        Effect.queueMetadataTask value],
      queued := some value }
  else
    { status := SyncStatus.failed,
      effects := [Effect.snapshotWrite (metadata.key.getD "") [] false],
      queued := none }

/-- Modelled from the spec: the metadata persistence collaborator (§6) —
not part of `main.tsx` — accepts the queued `{model, pluginId, value}`
task and applies it asynchronously to the entity's metadata store; the
engine itself never writes storage directly (§3). -/
def applyMetadataTask (t : Thread) (value : SharingMetadata) : Thread :=
  { t with metadata := some value }

/-- Recognizes the snapshot-document remote write among the effects. -/
def isSnapshotWriteE : Effect → Bool
  | Effect.snapshotWrite _ _ _ => true
  | _ => false

theorem processUpload_trace_no_snapshot (env : Env) (urls : List (String × String))
    (f : SFile) : (processUpload env urls f).2.countP isSnapshotWriteE = 0 := by
  unfold processUpload
  rcases env.read f with _ | len
  · simp
  · simp only
    split
    · simp
    · rcases env.upload f with _ | link <;>
        simp [List.countP_cons, isSnapshotWriteE]

theorem uploadSeq_trace_no_snapshot (env : Env) (fs : List SFile)
    (urls : List (String × String)) :
    (uploadSeq env fs urls).2.countP isSnapshotWriteE = 0 := by
  induction fs generalizing urls with
  | nil => simp [uploadSeq]
  | cons f rest ih =>
    simp only [uploadSeq, List.countP_append]
    rw [ih, processUpload_trace_no_snapshot]

/-- **C1.** Publishing twice in succession with no intervening content
change performs the remote snapshot write exactly once: the first call
(the one that queues metadata `m`) contains exactly one snapshot write
among its effects, and once the queued metadata task has been applied, a
second `syncThreadToWeb` on the same messages recomputes the fingerprint,
finds it equal to `metadata.combinedVersionHash`, and returns immediately
with no uploads, no snapshot write and no queued task. -/
theorem publish_twice_second_noop (env env2 : Env) (t : Thread)
    (msgs : List Message) (m : SharingMetadata)
    (hq : (syncThreadToWeb env t msgs).queued = some m) :
    (syncThreadToWeb env t msgs).effects.countP isSnapshotWriteE = 1 ∧
    syncThreadToWeb env2 (applyMetadataTask t m) msgs =
      { status := SyncStatus.noop, effects := [], queued := none } := by
  by_cases hg : (metadataOf t).combinedVersionHash =
      some (combinedVersionHashOf (msgs.filter fun x => !x.hidden))
  · simp [syncThreadToWeb, hg] at hq
  · by_cases hs : env.snapshotOk
    · simp only [syncThreadToWeb, hg, if_false, hs, if_true, Option.some.injEq,
        reduceIte] at hq
      constructor
      · simp only [syncThreadToWeb, hg, hs, reduceIte, List.countP_append]
        rw [uploadSeq_trace_no_snapshot]
        simp [List.countP_cons, isSnapshotWriteE]
      · have hmv : m.combinedVersionHash =
            some (combinedVersionHashOf (msgs.filter fun x => !x.hidden)) := by
          rw [← hq]
        simp [syncThreadToWeb, applyMetadataTask, metadataOf, hmv]
    · simp [syncThreadToWeb, hg, hs] at hq

/-! ### Concrete sample data used by witnesses -/

/-- Sample environment: every read returns 3 bytes, every upload succeeds,
the snapshot write succeeds, `Date.now()` is 7. -/
def sampleEnv : Env :=
  { read := fun _ => some 3, upload := fun f => some ("u-" ++ f.id),
    snapshotOk := true, now := 7 }

/-- Sample environment whose snapshot write rejects. -/
def sampleEnvFail : Env :=
  { read := fun _ => some 3, upload := fun f => some ("u-" ++ f.id),
    snapshotOk := false, now := 7 }

/-- A sample visible message carrying one attachment. -/
def sampleMsg : Message := ⟨"m1", 2, "b", false, [⟨"f1", "a.png"⟩]⟩

/-- A sample thread with no stored sharing metadata. -/
def sampleThread : Thread := ⟨"T1", "Hi", 1000, 500, 2000, none⟩

/-- The metadata value queued by publishing `sampleThread` under
`sampleEnv`. -/
def sampleQueued : SharingMetadata :=
  { shared := true, key := some "T1-7", combinedVersionHash := some "2",
    fileURLs := some [("f1", "u-f1")] }

/-- Witness for `publish_twice_second_noop` at the sample input. -/
theorem publish_twice_second_noop_witness :
    (syncThreadToWeb sampleEnv sampleThread [sampleMsg]).effects.countP isSnapshotWriteE = 1 ∧
    syncThreadToWeb sampleEnv (applyMetadataTask sampleThread sampleQueued) [sampleMsg] =
      { status := SyncStatus.noop, effects := [], queued := none } :=
  publish_twice_second_noop sampleEnv sampleEnv sampleThread [sampleMsg] sampleQueued
    (by decide)

theorem uploadSeq_trace_no_queue (env : Env) (fs : List SFile)
    (urls : List (String × String)) (v : SharingMetadata) :
    Effect.queueMetadataTask v ∉ (uploadSeq env fs urls).2 := by
  induction fs generalizing urls with
  | nil => simp [uploadSeq]
  | cons f rest ih =>
    simp only [uploadSeq, List.mem_append, not_or]
    refine ⟨?_, ih _⟩
    unfold processUpload
    rcases env.read f with _ | len
    · simp
    · simp only
      split
      · simp
      · rcases env.upload f with _ | link <;> simp

/-- **C3.** If the remote snapshot write fails during a publish that got
past the fingerprint guard, the attempt is aborted: the call rejects, no
metadata persistence task is queued (so the stored metadata — which only
the task-queue collaborator ever updates — is unchanged, `combinedVersionHash`
included), and any subsequent publish of the same thread and messages gets
past the guard again, attempting the full publish from scratch. -/
theorem snapshot_failure_aborts_publish (env : Env) (t : Thread) (msgs : List Message)
    (hfail : env.snapshotOk = false)
    (hg : (metadataOf t).combinedVersionHash ≠
      some (combinedVersionHashOf (msgs.filter fun x => !x.hidden))) :
    (syncThreadToWeb env t msgs).status = SyncStatus.failed ∧
    (syncThreadToWeb env t msgs).queued = none ∧
    (∀ v, Effect.queueMetadataTask v ∉ (syncThreadToWeb env t msgs).effects) ∧
    (∀ env2, (syncThreadToWeb env2 t msgs).status ≠ SyncStatus.noop) := by
  refine ⟨?_, ?_, ?_, ?_⟩
  · simp [syncThreadToWeb, hg, hfail]
  · simp [syncThreadToWeb, hg, hfail]
  · intro v
    simp [syncThreadToWeb, hg, hfail, uploadSeq_trace_no_queue]
  · intro env2
    simp only [syncThreadToWeb, hg, reduceIte, if_false]
    split <;> simp

/-- Witness for `snapshot_failure_aborts_publish` at the sample input. -/
theorem snapshot_failure_aborts_publish_witness :
    (syncThreadToWeb sampleEnvFail sampleThread [sampleMsg]).status = SyncStatus.failed ∧
    (syncThreadToWeb sampleEnvFail sampleThread [sampleMsg]).queued = none ∧
    (∀ v, Effect.queueMetadataTask v ∉ (syncThreadToWeb sampleEnvFail sampleThread [sampleMsg]).effects) ∧
    (∀ env2, (syncThreadToWeb env2 sampleThread [sampleMsg]).status ≠ SyncStatus.noop) :=
  snapshot_failure_aborts_publish sampleEnvFail sampleThread [sampleMsg]
    (by decide) (by decide)

/-- **C4.** `metadata.key` is assigned exactly once: a publish that queues
metadata keeps a present (truthy) key unchanged, assigns
`thread.id ++ "-" ++ Date.now()` only when the key is absent, and
`unsyncThread` queues `shared == false` with the key exactly as it was
before the call, so a re-share reuses the same remote address. -/
theorem key_stable_across_operations (env : Env) (t : Thread) (msgs : List Message) :
    (∀ k m, (metadataOf t).key = some k → k ≠ "" →
      (syncThreadToWeb env t msgs).queued = some m → m.key = some k) ∧
    (∀ m, (metadataOf t).key = none →
      (syncThreadToWeb env t msgs).queued = some m →
      m.key = some (t.id ++ "-" ++ natStr env.now)) ∧
    (∀ m, (unsyncThread env t).queued = some m →
      m.shared = false ∧ m.key = (metadataOf t).key) := by
  refine ⟨?_, ?_, ?_⟩
  · intro k m hk hne hq
    by_cases hg : (metadataOf t).combinedVersionHash =
        some (combinedVersionHashOf (msgs.filter fun x => !x.hidden))
    · simp [syncThreadToWeb, hg] at hq
    · by_cases hs : env.snapshotOk
      · simp only [syncThreadToWeb, hg, hs, reduceIte, if_false, if_true,
          Option.some.injEq] at hq
        rw [← hq]
        simp [strOr, hk, hne]
      · simp [syncThreadToWeb, hg, hs] at hq
  · intro m hk hq
    by_cases hg : (metadataOf t).combinedVersionHash =
        some (combinedVersionHashOf (msgs.filter fun x => !x.hidden))
    · simp [syncThreadToWeb, hg] at hq
    · by_cases hs : env.snapshotOk
      · simp only [syncThreadToWeb, hg, hs, reduceIte, if_false, if_true,
          Option.some.injEq] at hq
        rw [← hq]
        simp [strOr, hk]
      · simp [syncThreadToWeb, hg, hs] at hq
  · intro m hq
    by_cases hs : env.snapshotOk
    · simp only [unsyncThread, hs, reduceIte, if_true, Option.some.injEq] at hq
      rw [← hq]
      exact ⟨rfl, rfl⟩
    · simp [unsyncThread, hs] at hq

/-- A sample thread that is already shared, with a stored key and one
uploaded attachment URL. -/
def sampleSharedThread : Thread :=
  ⟨"T1", "Hi", 1000, 500, 2000,
    some { shared := true, key := some "k9", combinedVersionHash := some "1",
           fileURLs := some [("a", "http://x")] }⟩

/-- Witness for `key_stable_across_operations` at the sample input: the
publish of the already-shared sample thread queues metadata whose key is
still `"k9"`, and the unshare queues `shared == false` with that key. -/
theorem key_stable_across_operations_witness :
    (SharingMetadata.mk true (some "k9") (some "2")
        (some [("a", "http://x"), ("f1", "u-f1")])).key = some "k9" ∧
    ((SharingMetadata.mk false (some "k9") none none).shared = false ∧
      (SharingMetadata.mk false (some "k9") none none).key =
        (metadataOf sampleSharedThread).key) :=
  ⟨(key_stable_across_operations sampleEnv sampleSharedThread [sampleMsg]).1 "k9"
      (SharingMetadata.mk true (some "k9") (some "2")
        (some [("a", "http://x"), ("f1", "u-f1")]))
      (by decide) (by decide) (by decide),
    (key_stable_across_operations sampleEnv sampleSharedThread [sampleMsg]).2.2
      (SharingMetadata.mk false (some "k9") none none) (by decide)⟩

theorem objGet_objSet_ne {α : Type} (m : List (String × α)) (k i : String) (v : α)
    (h : k ≠ i) : objGet (objSet m k v) i = objGet m i := by
  induction m with
  | nil => simp [objSet, objGet, h]
  | cons p rest ih =>
    by_cases hp : p.1 = k
    · simp [objSet, objGet, hp, h]
    · simp [objSet, objGet, hp, ih]

theorem processUpload_preserves (env : Env) (urls : List (String × String))
    (f : SFile) (i : String) (h : f.id ≠ i) :
    objGet (processUpload env urls f).1 i = objGet urls i := by
  unfold processUpload
  rcases env.read f with _ | len
  · rfl
  · simp only
    split
    · rfl
    · rcases env.upload f with _ | link
      · rfl
      · exact objGet_objSet_ne _ _ _ _ h

theorem uploadSeq_preserves (env : Env) (fs : List SFile)
    (urls : List (String × String)) (i : String) (h : ∀ f ∈ fs, f.id ≠ i) :
    objGet (uploadSeq env fs urls).1 i = objGet urls i := by
  induction fs generalizing urls with
  | nil => rfl
  | cons f rest ih =>
    simp only [uploadSeq]
    rw [ih _ fun g hg => h g (List.mem_cons_of_mem f hg),
      processUpload_preserves env urls f i (h f (List.mem_cons_self f rest))]

/-- **C2 (counterexample).**  `fileURLs` is **not** monotone under every
engine operation: the already-shared sample thread maps asset `"a"` to
`"http://x"`, yet the metadata state queued by `unsyncThread` is
`{shared: false, key}` with no `fileURLs` at all, so the pair is gone and
a re-share starts from an empty map. -/
theorem fileURLs_dropped_by_unsync_cex :
    objGet ((metadataOf sampleSharedThread).fileURLs.getD []) "a" = some "http://x" ∧
    (unsyncThread sampleEnv sampleSharedThread).queued =
      some { shared := false, key := some "k9", combinedVersionHash := none,
             fileURLs := none } ∧
    objGet ((SharingMetadata.mk false (some "k9") none none).fileURLs.getD []) "a" = none := by
  refine ⟨by decide, by decide, by decide⟩

/-- **C2 (amended).**  `fileURLs` is monotone under `syncThreadToWeb`:
once an asset id is mapped to a truthy (nonempty) URL, the metadata value
queued by any later publish still contains that same pair, even if the
asset is no longer attached to the thread.  (`unsyncThread`, by contrast,
queues a metadata value without `fileURLs`, dropping every mapping —
see the counterexample.) -/
theorem fileURLs_monotone_under_publish (env : Env) (t : Thread) (msgs : List Message)
    (m : SharingMetadata) (i u : String) (hu : u ≠ "")
    (hbefore : objGet ((metadataOf t).fileURLs.getD []) i = some u)
    (hq : (syncThreadToWeb env t msgs).queued = some m) :
    objGet (m.fileURLs.getD []) i = some u := by
  by_cases hg : (metadataOf t).combinedVersionHash =
      some (combinedVersionHashOf (msgs.filter fun x => !x.hidden))
  · simp [syncThreadToWeb, hg] at hq
  · by_cases hs : env.snapshotOk
    · simp only [syncThreadToWeb, hg, hs, reduceIte, if_false, if_true,
        Option.some.injEq] at hq
      rw [← hq]
      simp only [Option.getD_some]
      rw [uploadSeq_preserves]
      · exact hbefore
      · intro f hf
        rw [List.mem_reverse, List.mem_filter] at hf
        intro hfi
        rw [hfi, hbefore] at hf
        simp [truthyStr, hu] at hf
    · simp [syncThreadToWeb, hg, hs] at hq

/-- Witness for `fileURLs_monotone_under_publish`: publishing the shared
sample thread (whose map holds `"a" ↦ "http://x"`) queues metadata still
holding that pair. -/
theorem fileURLs_monotone_under_publish_witness :
    objGet ((SharingMetadata.mk true (some "k9") (some "2")
        (some [("a", "http://x"), ("f1", "u-f1")])).fileURLs.getD []) "a" =
      some "http://x" :=
  fileURLs_monotone_under_publish sampleEnv sampleSharedThread [sampleMsg]
    (SharingMetadata.mk true (some "k9") (some "2")
      (some [("a", "http://x"), ("f1", "u-f1")]))
    "a" "http://x" (by decide) (by decide) (by decide)

/-- **C8.** The fingerprint is a deterministic function of the units'
version stamps: identical `(id, version)` lists in the same order give
identical fingerprints, and two lists that differ in exactly one unit's
version stamp give different fingerprints. -/
theorem fingerprint_sensitivity (l1 l2 a b : List Message) (m1 m2 : Message) :
    ((l1.map fun m => (m.id, m.version)) = (l2.map fun m => (m.id, m.version)) →
      combinedVersionHashOf l1 = combinedVersionHashOf l2) ∧
    (m1.version ≠ m2.version →
      combinedVersionHashOf (a ++ m1 :: b) ≠ combinedVersionHashOf (a ++ m2 :: b)) := by
  constructor
  · intro h
    have hv : (l1.map fun m => m.version) = (l2.map fun m => m.version) := by
      have h2 := congrArg (List.map Prod.snd) h
      simpa [List.map_map, Function.comp] using h2
    simp [combinedVersionHashOf, hv]
  · intro hne heq
    apply hne
    have h2 : (joinVersions ((a.map fun m => m.version) ++
          m1.version :: (b.map fun m => m.version))).data =
        (joinVersions ((a.map fun m => m.version) ++
          m2.version :: (b.map fun m => m.version))).data := by
      have h3 := congrArg String.data heq
      simpa [combinedVersionHashOf, List.map_append] using h3
    exact joinVersions_data_inj_at _ _ _ _ h2

/-- The sample message with its version stamp bumped from 2 to 3. -/
def sampleMsgV3 : Message := ⟨"m1", 3, "b", false, [⟨"f1", "a.png"⟩]⟩

/-- Witness for `fingerprint_sensitivity` at the sample messages. -/
theorem fingerprint_sensitivity_witness :
    combinedVersionHashOf [sampleMsg] = combinedVersionHashOf [sampleMsg] ∧
    combinedVersionHashOf ([] ++ sampleMsg :: []) ≠
      combinedVersionHashOf ([] ++ sampleMsgV3 :: []) :=
  ⟨(fingerprint_sensitivity [sampleMsg] [sampleMsg] [] [] sampleMsg sampleMsgV3).1 rfl,
    (fingerprint_sensitivity [sampleMsg] [sampleMsg] [] [] sampleMsg sampleMsgV3).2
      (by decide)⟩

/-- **C9.** A per-asset failure does not block the publish: when the
second of three attachments reads back as zero bytes, the publish still
uploads the other two (in the source's pop order: third first, then
first), records exactly those two URL pairs in `fileURLs`, still performs
the snapshot write, and queues the metadata task. -/
theorem asset_failure_does_not_block_publish (env : Env) (t : Thread)
    (msgs : List Message) (f1 f2 f3 : SFile) (n1 n3 : Nat) (u1 u3 : String)
    (hcv : (metadataOf t).combinedVersionHash = none)
    (hfu : (metadataOf t).fileURLs = none)
    (hfiles : collectFiles (msgs.filter fun x => !x.hidden) = [f1, f2, f3])
    (h21 : f2.id ≠ f1.id) (h31 : f3.id ≠ f1.id) (h23 : f2.id ≠ f3.id)
    (hr1 : env.read f1 = some n1) (hn1 : n1 ≠ 0) (hup1 : env.upload f1 = some u1)
    (hr2 : env.read f2 = some 0)
    (hr3 : env.read f3 = some n3) (hn3 : n3 ≠ 0) (hup3 : env.upload f3 = some u3)
    (hsnap : env.snapshotOk = true) :
    (syncThreadToWeb env t msgs).status = SyncStatus.ok ∧
    (∃ m, (syncThreadToWeb env t msgs).queued = some m ∧
      m.fileURLs = some [(f3.id, u3), (f1.id, u1)]) ∧
    Effect.assetUpload f1.id (some u1) ∈ (syncThreadToWeb env t msgs).effects ∧
    Effect.assetUpload f3.id (some u3) ∈ (syncThreadToWeb env t msgs).effects ∧
    (∀ r, Effect.assetUpload f2.id r ∉ (syncThreadToWeb env t msgs).effects) ∧
    (syncThreadToWeb env t msgs).effects.countP isSnapshotWriteE = 1 := by
  have hguard : ¬((metadataOf t).combinedVersionHash =
      some (combinedVersionHashOf (msgs.filter fun x => !x.hidden))) := by
    rw [hcv]; simp
  have hcomp : syncThreadToWeb env t msgs =
      { status := SyncStatus.ok,
        effects := [Effect.assetUpload f3.id (some u3), Effect.assetUpload f1.id (some u1),
          Effect.snapshotWrite (strOr (metadataOf t).key (t.id ++ "-" ++ natStr env.now))
            [(f3.id, u3), (f1.id, u1)] true,
          Effect.queueMetadataTask
            { shared := true,
              key := some (strOr (metadataOf t).key (t.id ++ "-" ++ natStr env.now)),
              combinedVersionHash := some (combinedVersionHashOf (msgs.filter fun x => !x.hidden)),
              fileURLs := some [(f3.id, u3), (f1.id, u1)] }],
        queued := some
          { shared := true,
            key := some (strOr (metadataOf t).key (t.id ++ "-" ++ natStr env.now)),
            combinedVersionHash := some (combinedVersionHashOf (msgs.filter fun x => !x.hidden)),
            fileURLs := some [(f3.id, u3), (f1.id, u1)] } } := by
    simp only [syncThreadToWeb, hguard, reduceIte, if_false, hfu, Option.getD_none,
      hfiles, hsnap]
    simp [objGet, truthyStr, uploadSeq, processUpload, hr1, hr2, hr3, hn1, hn3,
      hup1, hup3, objSet, h31]
  rw [hcomp]
  refine ⟨rfl, ⟨_, rfl, rfl⟩, by simp, by simp, ?_, by simp [List.countP_cons, isSnapshotWriteE]⟩
  intro r
  simp [h21, h23]

/-- Environment in which the attachment `"g2"` reads back as zero bytes
and every other read yields 3 bytes. -/
def sampleEnvMixed : Env :=
  { read := fun f => if f.id = "g2" then some 0 else some 3,
    upload := fun f => some ("u-" ++ f.id), snapshotOk := true, now := 7 }

/-- A message holding the three attachments `g1`, `g2`, `g3`. -/
def sampleMsg3 : Message :=
  ⟨"m1", 2, "b", false, [⟨"g1", "1.png"⟩, ⟨"g2", "2.png"⟩, ⟨"g3", "3.png"⟩]⟩

/-- Witness for `asset_failure_does_not_block_publish` at the sample
input. -/
theorem asset_failure_does_not_block_publish_witness :
    (syncThreadToWeb sampleEnvMixed sampleThread [sampleMsg3]).status = SyncStatus.ok ∧
    (∃ m, (syncThreadToWeb sampleEnvMixed sampleThread [sampleMsg3]).queued = some m ∧
      m.fileURLs = some [("g3", "u-g3"), ("g1", "u-g1")]) ∧
    Effect.assetUpload "g1" (some "u-g1") ∈
      (syncThreadToWeb sampleEnvMixed sampleThread [sampleMsg3]).effects ∧
    Effect.assetUpload "g3" (some "u-g3") ∈
      (syncThreadToWeb sampleEnvMixed sampleThread [sampleMsg3]).effects ∧
    (∀ r, Effect.assetUpload "g2" r ∉
      (syncThreadToWeb sampleEnvMixed sampleThread [sampleMsg3]).effects) ∧
    (syncThreadToWeb sampleEnvMixed sampleThread [sampleMsg3]).effects.countP
      isSnapshotWriteE = 1 :=
  asset_failure_does_not_block_publish sampleEnvMixed sampleThread [sampleMsg3]
    ⟨"g1", "1.png"⟩ ⟨"g2", "2.png"⟩ ⟨"g3", "3.png"⟩ 3 3 "u-g1" "u-g3"
    (by decide) (by decide) (by decide) (by decide) (by decide) (by decide)
    (by decide) (by decide) (by decide) (by decide) (by decide) (by decide)
    (by decide) (by decide)

/-! ### The fuzzy resolver

`_parseOpenThreadUrl` (lines 36-44) and `_findCorrespondingThread`
(lines 46-70).  The source builds a `Matcher` query tree and hands it to
`DatabaseStore.findBy(Thread)`; both collaborators live outside this
module, so their evaluation semantics is modelled from the spec (§4.6 and
§6): `lessThan` / `greaterThan` are numeric comparisons, `equal` on the
subject is string equality, the store returns the first matching entity,
and a bound built from an undefined operand (`undefined ± ε`, i.e. `NaN`)
compares false against every value. -/

/-- `ε` — `DATE_EPSILON = 60` seconds (line 27). -/
def DATE_EPSILON : Int := 60

/-- The query tree built by `_findCorrespondingThread`: binary `And` /
`Or` (the source always passes two-element arrays), comparisons against
possibly-undefined bounds on the three timestamp attributes, and subject
equality. -/
inductive Matcher where
  | and2 : Matcher → Matcher → Matcher
  | or2 : Matcher → Matcher → Matcher
  | firstLessThan : Option Int → Matcher
  | firstGreaterThan : Option Int → Matcher
  | lastSentLessThan : Option Int → Matcher
  | lastSentGreaterThan : Option Int → Matcher
  | lastRecvLessThan : Option Int → Matcher
  | lastRecvGreaterThan : Option Int → Matcher
  | subjectEqual : String → Matcher
deriving DecidableEq

/-- `x < v` against a possibly-undefined bound (`none` = `NaN`: false). -/
def numLt (x : Int) : Option Int → Bool
  | none => false
  | some v => decide (x < v)

/-- `x > v` against a possibly-undefined bound (`none` = `NaN`: false). -/
def numGt (x : Int) : Option Int → Bool
  | none => false
  | some v => decide (v < x)

/-- Modelled from the spec: evaluation of a Matcher query tree against one
thread by the entity-store collaborator (§4.6, §6). -/
def Matcher.accepts (t : Thread) : Matcher → Bool
  | .and2 a b => Matcher.accepts t a && Matcher.accepts t b
  | .or2 a b => Matcher.accepts t a || Matcher.accepts t b
  | .firstLessThan v => numLt t.firstMessageTimestamp v
  | .firstGreaterThan v => numGt t.firstMessageTimestamp v
  | .lastSentLessThan v => numLt t.lastMessageSentTimestamp v
  | .lastSentGreaterThan v => numGt t.lastMessageSentTimestamp v
  | .lastRecvLessThan v => numLt t.lastMessageReceivedTimestamp v
  | .lastRecvGreaterThan v => numGt t.lastMessageReceivedTimestamp v
  | .subjectEqual s => t.subject = s

/-- The parsed locator (`MailspringLinkParams`): absent fields are `none`. -/
structure MailspringLinkParams where
  subject : String
  lastDate : Option Int
  date : Option Int
deriving DecidableEq

/-- The raw query-string fields of an inbound `openThreadFromWeb` URL. -/
structure RawLinkParams where
  subject : String
  date : Option String
  lastDate : Option String
deriving DecidableEq

/-- JS truthiness of a possibly-undefined number (`undefined`, `NaN` and
`0` are falsy). -/
def numTruthy : Option Int → Bool
  | none => false
  | some v => !(v = 0)

/-- `v + e` where `v` may be undefined (`undefined + e` is `NaN`). -/
def optAdd : Option Int → Int → Option Int
  | none, _ => none
  | some v, e => some (v + e)

/-- `v - e` where `v` may be undefined (`undefined - e` is `NaN`). -/
def optSub : Option Int → Int → Option Int
  | none, _ => none
  | some v, e => some (v - e)

/-- Modelled from the spec: `parseInt(s, 10)` on the (possibly signed)
decimal epoch-second strings of the locator wire format (§6); a
non-numeric string yields `NaN`, embedded as `none` (falsy and matching
nothing, exactly as `NaN` behaves downstream). -/
def jsParseInt (s : String) : Option Int :=
  match s.data with
  | '-' :: rest =>
    if !rest.isEmpty && rest.all Char.isDigit then
      some (-(Int.ofNat (decodeDigits rest)))
    else none
  | cs =>
    if !cs.isEmpty && cs.all Char.isDigit then some (Int.ofNat (decodeDigits cs))
    else none

/-- `params.x ? parseInt(params.x, 10) : undefined` for one optional raw
field (lines 41-42): an absent or empty raw string stays undefined. -/
def parseOptField : Option String → Option Int
  | none => none
  | some s => if s = "" then none else jsParseInt s

/-- `_parseOpenThreadUrl` (lines 36-44), applied to the already-split
query-string fields. -/
def parseOpenThreadParams (r : RawLinkParams) : MailspringLinkParams :=
  { subject := r.subject, lastDate := parseOptField r.lastDate,
    date := parseOptField r.date }

/-- The `dateClause` of `_findCorrespondingThread` (lines 50-64): the
branch on a *truthy* `date`, not a merely present one. -/
def dateClauseOf (p : MailspringLinkParams) (eps : Int) : Matcher :=
  if numTruthy p.date then
    Matcher.and2 (Matcher.firstLessThan (optAdd p.date eps))
      (Matcher.firstGreaterThan (optSub p.date eps))
  else
    Matcher.or2
      (Matcher.and2 (Matcher.lastSentLessThan (optAdd p.lastDate eps))
        (Matcher.lastSentGreaterThan (optSub p.lastDate eps)))
      (Matcher.and2 (Matcher.lastRecvLessThan (optAdd p.lastDate eps))
        (Matcher.lastRecvGreaterThan (optSub p.lastDate eps)))

/-- The conjunction handed to `.where([subject equal, dateClause])`. -/
def resolverAccepts (p : MailspringLinkParams) (eps : Int) (t : Thread) : Bool :=
  Matcher.accepts t (Matcher.subjectEqual p.subject) &&
    Matcher.accepts t (dateClauseOf p eps)

/-- `DatabaseStore.findBy(Thread).where(...)`: the first entity of the
store satisfying the query, or not-found. -/
def findCorrespondingThread (store : List Thread) (p : MailspringLinkParams) :
    Option Thread :=
  store.find? (resolverAccepts p DATE_EPSILON)

/-- The resolver sample entity for the date-clue claim:
`firstUnitTime = 1000`. -/
def entityHi : Thread := ⟨"T2", "Hi", 1000, 40, 900, none⟩

/-- **C6.** With a truthy date clue `d`, the resolver's query accepts
exactly the entities whose subject equals the locator's subject and whose
`firstMessageTimestamp` lies inside the open tolerance band
`(d - 60, d + 60)`; concretely, the entity with `firstUnitTime = 1000` is
resolved by `{subject: "Hi", date: 1030}` and `{subject: "Hi", date: 1200}`
finds nothing. -/
theorem resolver_date_branch (s : String) (d : Int) (hd : d ≠ 0) :
    (∀ t, resolverAccepts ⟨s, none, some d⟩ DATE_EPSILON t = true ↔
      (t.subject = s ∧ d - 60 < t.firstMessageTimestamp ∧
        t.firstMessageTimestamp < d + 60)) ∧
    findCorrespondingThread [entityHi] ⟨"Hi", none, some 1030⟩ = some entityHi ∧
    findCorrespondingThread [entityHi] ⟨"Hi", none, some 1200⟩ = none := by
  refine ⟨?_, by decide, by decide⟩
  intro t
  simp [resolverAccepts, dateClauseOf, numTruthy, hd, optAdd, optSub,
    Matcher.accepts, numLt, numGt, DATE_EPSILON, and_comm]

/-- Witness for `resolver_date_branch`: the characterization evaluated at
the sample entity, and the two concrete resolutions. -/
theorem resolver_date_branch_witness :
    (resolverAccepts ⟨"Hi", none, some 1030⟩ DATE_EPSILON entityHi = true ↔
      (entityHi.subject = "Hi" ∧ 1030 - 60 < entityHi.firstMessageTimestamp ∧
        entityHi.firstMessageTimestamp < 1030 + 60)) ∧
    findCorrespondingThread [entityHi] ⟨"Hi", none, some 1030⟩ = some entityHi ∧
    findCorrespondingThread [entityHi] ⟨"Hi", none, some 1200⟩ = none :=
  ⟨(resolver_date_branch "Hi" 1030 (by decide)).1 entityHi,
    (resolver_date_branch "Hi" 1030 (by decide)).2⟩

/-- The resolver sample entity for the lastDate-clue claim:
`lastSentTime = 500`, `lastReceivedTime = 2000`. -/
def entityX : Thread := ⟨"T3", "X", 10, 500, 2000, none⟩

/-- **C7.** With only a lastDate clue `ld`, the resolver's query accepts
exactly the entities whose subject equals the locator's subject and whose
`lastMessageSentTimestamp` or `lastMessageReceivedTimestamp` lies inside
the open band `(ld - 60, ld + 60)`; concretely, the entity with
`lastSentTime = 500` and `lastReceivedTime = 2000` is resolved both by
`lastDate = 520` (sent branch) and by `lastDate = 1980` (received
branch). -/
theorem resolver_lastDate_branch (s : String) (ld : Int) :
    (∀ t, resolverAccepts ⟨s, some ld, none⟩ DATE_EPSILON t = true ↔
      (t.subject = s ∧
        ((ld - 60 < t.lastMessageSentTimestamp ∧ t.lastMessageSentTimestamp < ld + 60) ∨
          (ld - 60 < t.lastMessageReceivedTimestamp ∧
            t.lastMessageReceivedTimestamp < ld + 60)))) ∧
    findCorrespondingThread [entityX] ⟨"X", some 520, none⟩ = some entityX ∧
    findCorrespondingThread [entityX] ⟨"X", some 1980, none⟩ = some entityX := by
  refine ⟨?_, by decide, by decide⟩
  intro t
  simp [resolverAccepts, dateClauseOf, numTruthy, optAdd, optSub,
    Matcher.accepts, numLt, numGt, DATE_EPSILON, and_comm]

/-- Witness for `resolver_lastDate_branch`: the characterization evaluated
at the sample entity, and the two concrete resolutions. -/
theorem resolver_lastDate_branch_witness :
    (resolverAccepts ⟨"X", some 520, none⟩ DATE_EPSILON entityX = true ↔
      (entityX.subject = "X" ∧
        ((520 - 60 < entityX.lastMessageSentTimestamp ∧
            entityX.lastMessageSentTimestamp < 520 + 60) ∨
          (520 - 60 < entityX.lastMessageReceivedTimestamp ∧
            entityX.lastMessageReceivedTimestamp < 520 + 60)))) ∧
    findCorrespondingThread [entityX] ⟨"X", some 520, none⟩ = some entityX ∧
    findCorrespondingThread [entityX] ⟨"X", some 1980, none⟩ = some entityX :=
  ⟨(resolver_lastDate_branch "X" 520).1 entityX, (resolver_lastDate_branch "X" 520).2⟩

/-- **C10.** A raw `date=0` field parses to a present-but-zero date; the
branch choice tests truthiness, so the locator `{subject, date: 0}` takes
the lastDate branch (its clause is identical to the one built with no date
at all); and when no lastDate is supplied either, the clause is built from
an undefined operand, no entity can match, and resolution over any store
reports not-found. -/
theorem date_zero_takes_lastDate_branch (store : List Thread) (s : String)
    (ld : Option Int) :
    parseOpenThreadParams ⟨s, some "0", none⟩ = ⟨s, none, some 0⟩ ∧
    dateClauseOf ⟨s, ld, some 0⟩ DATE_EPSILON = dateClauseOf ⟨s, ld, none⟩ DATE_EPSILON ∧
    (∀ t, resolverAccepts ⟨s, none, some 0⟩ DATE_EPSILON t = false) ∧
    findCorrespondingThread store ⟨s, none, some 0⟩ = none := by
  refine ⟨?_, ?_, ?_, ?_⟩
  · simp only [parseOpenThreadParams, parseOptField, jsParseInt]
    rfl
  · simp [dateClauseOf, numTruthy]
  · intro t
    simp [resolverAccepts, dateClauseOf, numTruthy, optAdd, optSub,
      Matcher.accepts, numLt, numGt]
  · rw [findCorrespondingThread, List.find?_eq_none]
    intro t _
    simp [resolverAccepts, dateClauseOf, numTruthy, optAdd, optSub,
      Matcher.accepts, numLt, numGt]

/-- Witness for `date_zero_takes_lastDate_branch` at a concrete store,
subject and lastDate. -/
theorem date_zero_takes_lastDate_branch_witness :
    parseOpenThreadParams ⟨"Hi", some "0", none⟩ = ⟨"Hi", none, some 0⟩ ∧
    dateClauseOf ⟨"Hi", some 77, some 0⟩ DATE_EPSILON =
      dateClauseOf ⟨"Hi", some 77, none⟩ DATE_EPSILON ∧
    (∀ t, resolverAccepts ⟨"Hi", none, some 0⟩ DATE_EPSILON t = false) ∧
    findCorrespondingThread [entityHi, entityX] ⟨"Hi", none, some 0⟩ = none :=
  date_zero_takes_lastDate_branch [entityHi, entityX] "Hi" (some 77)

/-! ### The debounce scheduler

`syncThreadToWebSoon` (lines 116-135): module-level state `soon` (a JS
object keyed by thread id, last write wins) and `soonTimer` (a single
outstanding 5-second timeout).  The timer fire swaps the pending map out,
clears the handle, and publishes every collected thread.  Real time is
embedded as the timestamp at which each notification arrives; the timer
handle stores its scheduled fire time. -/

/-- The debounce delay of the `setTimeout` call (line 133), in
milliseconds. -/
def SYNC_DEBOUNCE_MS : Nat := 5000

/-- The module-level mutable state `soon` / `soonTimer`. -/
structure SchedulerState where
  soon : List (String × Thread)
  soonTimer : Option Nat
deriving DecidableEq

/-- Startup state: empty pending map, no timer. -/
def initialScheduler : SchedulerState := ⟨[], none⟩

/-- `syncThreadToWebSoon(thread)` observed at time `now`:
`soon[thread.id] = thread`, and a timer is started only if none is
running. -/
def syncThreadToWebSoon (now : Nat) (s : SchedulerState) (t : Thread) : SchedulerState :=
  { soon := objSet s.soon t.id t,
    soonTimer :=
      match s.soonTimer with
      | some d => some d
      | none => some (now + SYNC_DEBOUNCE_MS) }

/-- A sequence of change notifications `(arrival time, thread)` fed to the
scheduler in order. -/
def runOnChanges (s : SchedulerState) (evs : List (Nat × Thread)) : SchedulerState :=
  evs.foldl (fun st e => syncThreadToWebSoon e.1 st e.2) s

/-- The timer callback (lines 121-132): take `Object.values(soon)` as the
batch to publish and reset both `soon` and `soonTimer`. -/
def flushSoon (s : SchedulerState) : List Thread × SchedulerState :=
  (s.soon.map Prod.snd, ⟨[], none⟩)

/-- The thread carried by the last notification for entity id `i` in a
notification sequence, if any. -/
def lastFor (i : String) : List (Nat × Thread) → Option Thread
  | [] => none
  | e :: rest =>
    match lastFor i rest with
    | some t => some t
    | none => if e.2.id = i then some e.2 else none

theorem objGet_objSet_self {α : Type} (m : List (String × α)) (k : String) (v : α) :
    objGet (objSet m k v) k = some v := by
  induction m with
  | nil => simp [objSet, objGet]
  | cons p rest ih =>
    by_cases hp : p.1 = k
    · simp [objSet, objGet, hp]
    · simp [objSet, objGet, hp, ih]

theorem runOnChanges_lookup (evs : List (Nat × Thread)) (s : SchedulerState)
    (i : String) :
    objGet (runOnChanges s evs).soon i =
      match lastFor i evs with
      | some t => some t
      | none => objGet s.soon i := by
  induction evs generalizing s with
  | nil => rfl
  | cons e rest ih =>
    have hstep : runOnChanges s (e :: rest) =
        runOnChanges (syncThreadToWebSoon e.1 s e.2) rest := rfl
    rw [hstep, ih]
    cases hl : lastFor i rest with
    | some t => simp [lastFor, hl]
    | none =>
      simp only [lastFor, hl]
      by_cases hid : e.2.id = i
      · rw [← hid]
        simp [syncThreadToWebSoon, objGet_objSet_self]
      · simp [syncThreadToWebSoon, hid, objGet_objSet_ne _ _ _ _ hid]

theorem timer_preserved (evs : List (Nat × Thread)) (s : SchedulerState) (d : Nat)
    (h : s.soonTimer = some d) : (runOnChanges s evs).soonTimer = some d := by
  induction evs generalizing s with
  | nil => exact h
  | cons e rest ih => exact ih _ (by simp [syncThreadToWebSoon, h])

/-- The pending map's structural invariant: keys are distinct and each
entry is keyed by its thread's id. -/
def SoonInv (s : SchedulerState) : Prop :=
  (s.soon.map Prod.fst).Nodup ∧ ∀ p ∈ s.soon, p.1 = p.2.id

theorem mem_keys_objSet {α : Type} (m : List (String × α)) (k : String) (v : α)
    (i : String) :
    i ∈ (objSet m k v).map Prod.fst ↔ i ∈ m.map Prod.fst ∨ i = k := by
  induction m with
  | nil => simp [objSet]
  | cons p rest ih =>
    by_cases hp : p.1 = k
    · simp only [objSet, hp, reduceIte, List.map_cons, List.mem_cons]
      tauto
    · simp only [objSet, hp, reduceIte, List.map_cons, List.mem_cons, ih]
      tauto

theorem nodup_keys_objSet {α : Type} (m : List (String × α)) (k : String) (v : α)
    (h : (m.map Prod.fst).Nodup) : ((objSet m k v).map Prod.fst).Nodup := by
  induction m with
  | nil => simp [objSet]
  | cons p rest ih =>
    simp only [List.map_cons, List.nodup_cons] at h
    by_cases hp : p.1 = k
    · simp only [objSet, hp, reduceIte, List.map_cons, List.nodup_cons]
      exact ⟨hp ▸ h.1, h.2⟩
    · simp only [objSet, hp, reduceIte, List.map_cons, List.nodup_cons,
        mem_keys_objSet]
      exact ⟨by tauto, ih h.2⟩

theorem mem_objSet {α : Type} (m : List (String × α)) (k : String) (v : α)
    (p : String × α) (hp : p ∈ objSet m k v) : p ∈ m ∨ p = (k, v) := by
  induction m with
  | nil => simpa [objSet] using hp
  | cons q rest ih =>
    by_cases hq : q.1 = k
    · simp only [objSet, hq, reduceIte, List.mem_cons] at hp
      rcases hp with hp | hp
      · right; rw [hp]
      · left; exact List.mem_cons_of_mem q hp
    · simp only [objSet, hq, reduceIte, List.mem_cons] at hp
      rcases hp with hp | hp
      · left; rw [hp]; exact List.mem_cons_self q rest
      · rcases ih hp with h1 | h1
        · left; exact List.mem_cons_of_mem q h1
        · right; exact h1

theorem soonInv_run (evs : List (Nat × Thread)) (s : SchedulerState)
    (h : SoonInv s) : SoonInv (runOnChanges s evs) := by
  induction evs generalizing s with
  | nil => exact h
  | cons e rest ih =>
    refine ih _ ⟨nodup_keys_objSet _ _ _ h.1, ?_⟩
    intro p hp
    rcases mem_objSet _ _ _ p hp with h1 | h1
    · exact h.2 p h1
    · rw [h1]

theorem values_filter_eq (m : List (String × Thread)) (i : String)
    (hnd : (m.map Prod.fst).Nodup) (hk : ∀ p ∈ m, p.1 = p.2.id) :
    (m.map Prod.snd).filter (fun t => t.id == i) = (objGet m i).toList := by
  induction m with
  | nil => rfl
  | cons p rest ih =>
    simp only [List.map_cons, List.nodup_cons] at hnd
    have hkey : p.1 = p.2.id := hk p (List.mem_cons_self p rest)
    by_cases hpi : p.1 = i
    · have hb : (p.2.id == i) = true := by
        rw [beq_iff_eq, ← hkey, hpi]
      simp only [List.map_cons, List.filter_cons, hb, objGet, hpi, reduceIte,
        Option.toList_some]
      have hrest : (rest.map Prod.snd).filter (fun t => t.id == i) = [] := by
        rw [List.filter_eq_nil_iff]
        intro t ht
        rcases List.mem_map.mp ht with ⟨q, hq, hqt⟩
        have hq1 : q.1 = q.2.id := hk q (List.mem_cons_of_mem p hq)
        intro hbeq
        have : q.1 ∈ rest.map Prod.fst := List.mem_map.mpr ⟨q, hq, rfl⟩
        rw [hq1, hqt, beq_iff_eq.mp hbeq, ← hpi] at this
        exact hnd.1 this
      rw [hrest]
    · have hb : (p.2.id == i) = false := by
        rw [beq_eq_false_iff_ne, ← hkey]
        exact hpi
      simp only [List.map_cons, List.filter_cons, hb, objGet, hpi, reduceIte]
      exact ih hnd.2 fun q hq => hk q (List.mem_cons_of_mem p hq)

/-- **C5.** For every notification sequence within one debounce window,
the flush publishes at most one thread per entity id; when the sequence
contains notifications for id `i`, that one publish uses the thread state
of the last such notification; a notification arriving after the flush
finds an empty state and starts a fresh timer `SYNC_DEBOUNCE_MS` after
its own arrival; and the window's flush was scheduled
`SYNC_DEBOUNCE_MS` after the first unprocessed change. -/
theorem debounce_coalesces_per_entity (evs : List (Nat × Thread)) (i : String) :
    ((flushSoon (runOnChanges initialScheduler evs)).1.filter
      (fun t => t.id == i)).length ≤ 1 ∧
    (∀ tl, lastFor i evs = some tl →
      (flushSoon (runOnChanges initialScheduler evs)).1.filter
        (fun t => t.id == i) = [tl]) ∧
    (∀ now t', (syncThreadToWebSoon now
      (flushSoon (runOnChanges initialScheduler evs)).2 t').soonTimer =
        some (now + SYNC_DEBOUNCE_MS)) ∧
    (∀ e rest, evs = e :: rest →
      (runOnChanges initialScheduler evs).soonTimer =
        some (e.1 + SYNC_DEBOUNCE_MS)) := by
  have hinv : SoonInv (runOnChanges initialScheduler evs) :=
    soonInv_run evs initialScheduler ⟨List.nodup_nil, by simp [initialScheduler]⟩
  have hfil := values_filter_eq (runOnChanges initialScheduler evs).soon i
    hinv.1 hinv.2
  refine ⟨?_, ?_, ?_, ?_⟩
  · simp only [flushSoon]
    rw [hfil]
    cases objGet (runOnChanges initialScheduler evs).soon i <;> simp
  · intro tl htl
    simp only [flushSoon]
    rw [hfil, runOnChanges_lookup, htl]
    rfl
  · intro now t'
    rfl
  · intro e rest he
    rw [he]
    exact timer_preserved rest _ _ (by simp [syncThreadToWebSoon, initialScheduler])

/-- The same entity as `sampleThread`, observed again after a further
mutation (different subject). -/
def sampleThreadB : Thread := ⟨"T1", "Hi2", 1000, 500, 2000, none⟩

/-- Witness for `debounce_coalesces_per_entity`: two notifications for
entity `"T1"` in one window flush to exactly one publish carrying the
second thread state, and the timer was scheduled off the first change. -/
theorem debounce_coalesces_per_entity_witness :
    ((flushSoon (runOnChanges initialScheduler
      [(0, sampleThread), (1, sampleThreadB)])).1.filter
        (fun t => t.id == "T1")).length ≤ 1 ∧
    (flushSoon (runOnChanges initialScheduler
      [(0, sampleThread), (1, sampleThreadB)])).1.filter
        (fun t => t.id == "T1") = [sampleThreadB] ∧
    (runOnChanges initialScheduler
      [(0, sampleThread), (1, sampleThreadB)]).soonTimer =
        some (0 + SYNC_DEBOUNCE_MS) :=
  ⟨(debounce_coalesces_per_entity [(0, sampleThread), (1, sampleThreadB)] "T1").1,
    (debounce_coalesces_per_entity [(0, sampleThread), (1, sampleThreadB)] "T1").2.1
      sampleThreadB (by decide),
    (debounce_coalesces_per_entity [(0, sampleThread), (1, sampleThreadB)] "T1").2.2.2
      (0, sampleThread) [(1, sampleThreadB)] rfl⟩

end ThreadSharing
